import Mathlib

/-!
Verification of the three-tier versioning/resolution core of the `si`
repository (Head / ChangeSet / EditSession), its lifecycle transitions
(apply, save, cancel), the tier-aware traversal in
`components/si-model/src/application.rs`, and the component diff logic in
`lib/dal/src/component/diff.rs`.

Modelling conventions:
- ULID string identifiers (object ids, change set ids, edit session ids)
  are modelled as `Nat`.
- The structured JSON payload of a versioned row is abstracted to a `Nat`
  field `payload`; entity display names stay `String` (they feed label
  lists in `all_entities`).
- Fallible Rust functions returning `Result` are modelled as `Except`.
- The database is modelled as explicit association lists, one per tier,
  per the spec's persistence boundary: rows are keyed by
  `(object_id, tier_discriminator)`.
-/

/-- The tier discriminator of a stored row: Head, ChangeSet(id) or
EditSession(id) (spec section 3 / section 6 persistence boundary). -/
inductive Tier where
  | Head : Tier
  | ChangeSetTier (id : Nat) : Tier
  | EditSessionTier (id : Nat) : Tier
deriving DecidableEq, Repr

/-- A versioned entity row. `id` is the entity's own id (used as the tail
vertex key of the edge query in `all_entities`), `objectId` the stable
identity shared by all tier-specific rows of the object, `name` the display
name, `payload` the structured document (abstracted). -/
structure Entity where
  id : Nat
  objectId : Nat
  name : String
  payload : Nat
deriving DecidableEq, Repr

/-- Error taxonomy of the core (spec section 7): `notFound`,
`invalidState`, and `persistence` for an underlying transaction failure. -/
inductive StoreError where
  | notFound : StoreError
  | invalidState : StoreError
  | persistence : StoreError
deriving DecidableEq, Repr

/-- The versioned entity store: one association list per tier.
ChangeSet- and EditSession-tier rows are keyed by the owning change set /
edit session id alongside the row. -/
structure Store where
  headRows : List Entity
  changeSetRows : List (Nat × Entity)
  editSessionRows : List (Nat × Entity)
deriving DecidableEq, Repr

/-- Look up the Head-tier row for `oid`. -/
def findHead (s : Store) (oid : Nat) : Option Entity :=
  s.headRows.find? (fun e => e.objectId == oid)

/-- Look up the ChangeSet-tier row for `oid` under change set `csId`. -/
def findChangeSet (s : Store) (csId oid : Nat) : Option Entity :=
  (s.changeSetRows.find? (fun p => p.1 == csId && p.2.objectId == oid)).map (·.2)

/-- Look up the EditSession-tier row for `oid` under edit session `esId`. -/
def findEditSession (s : Store) (esId oid : Nat) : Option Entity :=
  (s.editSessionRows.find? (fun p => p.1 == esId && p.2.objectId == oid)).map (·.2)

/-- Modelled from the spec: `Entity::for_head_or_change_set_or_edit_session`
(called from `application::all_entities`) is not under `src/`; per spec
section 4.1 the resolution order is the EditSession row (if
`edit_session_id` is given and a row exists), then the ChangeSet row (if
`change_set_id` is given and a row exists), then the Head row, and the
lookup fails with `NotFound` when no row exists at any applicable tier. -/
def Entity.for_head_or_change_set_or_edit_session (s : Store) (oid : Nat)
    (changeSetId editSessionId : Option Nat) : Except StoreError Entity :=
  match editSessionId.bind (fun esId => findEditSession s esId oid) with
  | some e => Except.ok e
  | none =>
    match changeSetId.bind (fun csId => findChangeSet s csId oid) with
    | some e => Except.ok e
    | none =>
      match findHead s oid with
      | some e => Except.ok e
      | none => Except.error StoreError.notFound

/-- Short alias used throughout: the spec's `resolve`. -/
def resolve (s : Store) (oid : Nat) (changeSetId editSessionId : Option Nat) :
    Except StoreError Entity :=
  Entity.for_head_or_change_set_or_edit_session s oid changeSetId editSessionId

/-- A store with: object 1 drafted in edit session 9 under change set 5,
object 1 also present at the ChangeSet tier of 5 and at Head; object 2 only
at Head; object 3 nowhere. -/
def exStoreC1 : Store :=
  { headRows := [⟨1, 1, "one-head", 10⟩, ⟨2, 2, "two-head", 20⟩]
  , changeSetRows := [(5, ⟨1, 1, "one-cs", 11⟩)]
  , editSessionRows := [(9, ⟨1, 1, "one-es", 12⟩)] }

/-- ChangeSet status (spec section 3): Open, Applied, Abandoned. -/
inductive ChangeSetStatus where
  | Open : ChangeSetStatus
  | Applied : ChangeSetStatus
  | Abandoned : ChangeSetStatus
deriving DecidableEq, Repr

/-- EditSession status (spec section 3): Open, Saved, Canceled. -/
inductive EditSessionStatus where
  | Open : EditSessionStatus
  | Saved : EditSessionStatus
  | Canceled : EditSessionStatus
deriving DecidableEq, Repr

/-- A change set record: `{id, status}` (name/workspace/timestamps are not
load-bearing for the claims and are omitted). -/
structure ChangeSet where
  id : Nat
  status : ChangeSetStatus
deriving DecidableEq, Repr

/-- An edit session record: `{id, change_set_id, status}`. -/
structure EditSession where
  id : Nat
  changeSetId : Nat
  status : EditSessionStatus
deriving DecidableEq, Repr

/-- The whole persistent state: the tiered row store plus the lifecycle
records of change sets and edit sessions. -/
structure World where
  store : Store
  changeSets : List ChangeSet
  editSessions : List EditSession
deriving DecidableEq, Repr

/-- Create-or-replace the Head row for `e.objectId` (spec section 4.2 (b):
"write each as the new Head row for its `object_id`, overwriting any
existing Head row"; by the section 3 invariant at most one Head row exists
per `object_id`). -/
def upsertHead : List Entity → Entity → List Entity
  | [], e => [e]
  | r :: rest, e =>
    if r.objectId == e.objectId then e :: rest else r :: upsertHead rest e

/-- Create-or-replace the ChangeSet-tier row for `(csId, e.objectId)` (spec
section 4.3: "overwrite (create-or-replace) the corresponding
ChangeSet-tier row"). -/
def upsertChangeSetRow : List (Nat × Entity) → Nat → Entity → List (Nat × Entity)
  | [], csId, e => [(csId, e)]
  | p :: rest, csId, e =>
    if p.1 == csId && p.2.objectId == e.objectId then (csId, e) :: rest
    else p :: upsertChangeSetRow rest csId e

/-- Modelled from the spec: `EditSession::save_session` is not under `src/`
(only its callers in `application.rs` and `application_context_dal.rs`
are); per spec section 4.3, for every draft row owned by the session it
overwrites the corresponding ChangeSet-tier row, then deletes the session's
draft rows and sets status Saved; it fails with `InvalidState` when the
session is not Open. -/
def EditSession.save_session (w : World) (esId : Nat) : Except StoreError World :=
  match w.editSessions.find? (fun es => es.id == esId) with
  | none => Except.error StoreError.notFound
  | some es =>
    if es.status ≠ EditSessionStatus.Open then Except.error StoreError.invalidState
    else
      let drafts := (w.store.editSessionRows.filter (fun p => p.1 == esId)).map (·.2)
      let newChangeSetRows :=
        drafts.foldl (fun acc e => upsertChangeSetRow acc es.changeSetId e)
          w.store.changeSetRows
      Except.ok
        { store :=
            { headRows := w.store.headRows
            , changeSetRows := newChangeSetRows
            , editSessionRows := w.store.editSessionRows.filter (fun p => !(p.1 == esId)) }
        , changeSets := w.changeSets
        , editSessions := w.editSessions.map (fun s =>
            if s.id == esId then { s with status := EditSessionStatus.Saved } else s) }

/-- Modelled from the spec: `EditSession::cancel` is not under `src/` (only
its caller `cancel_edit_session` is); per spec section 4.3 it deletes all
the session's draft rows and sets status Canceled, leaving the ChangeSet
tier unchanged; it fails with `InvalidState` when the session is not Open. -/
def EditSession.cancel (w : World) (esId : Nat) : Except StoreError World :=
  match w.editSessions.find? (fun es => es.id == esId) with
  | none => Except.error StoreError.notFound
  | some es =>
    if es.status ≠ EditSessionStatus.Open then Except.error StoreError.invalidState
    else
      Except.ok
        { store :=
            { headRows := w.store.headRows
            , changeSetRows := w.store.changeSetRows
            , editSessionRows := w.store.editSessionRows.filter (fun p => !(p.1 == esId)) }
        , changeSets := w.changeSets
        , editSessions := w.editSessions.map (fun s =>
            if s.id == esId then { s with status := EditSessionStatus.Canceled } else s) }

/-- Modelled from the spec: `ChangeSet::apply` is not under `src/` (only its
callers `application::create` and `apply_change_set` are); per spec section
4.2 it (a) enumerates every row at this change set's tier, (b) writes each
as the new Head row for its `object_id`, overwriting any existing Head row,
(c) deletes the ChangeSet-tier rows, (d) terminates every EditSession still
Open under this change set (modelled as setting their status to the
terminal Canceled), (e) sets status Applied; it fails with `InvalidState`
when the change set is not Open. -/
def ChangeSet.apply (w : World) (csId : Nat) : Except StoreError World :=
  match w.changeSets.find? (fun cs => cs.id == csId) with
  | none => Except.error StoreError.notFound
  | some cs =>
    if cs.status ≠ ChangeSetStatus.Open then Except.error StoreError.invalidState
    else
      let promoted := (w.store.changeSetRows.filter (fun p => p.1 == csId)).map (·.2)
      Except.ok
        { store :=
            { headRows := promoted.foldl upsertHead w.store.headRows
            , changeSetRows := w.store.changeSetRows.filter (fun p => !(p.1 == csId))
            , editSessionRows := w.store.editSessionRows }
        , changeSets := w.changeSets.map (fun c =>
            if c.id == csId then { c with status := ChangeSetStatus.Applied } else c)
        , editSessions := w.editSessions.map (fun s =>
            if s.changeSetId == csId && s.status == EditSessionStatus.Open
            then { s with status := EditSessionStatus.Canceled } else s) }

/-- A world with change set 5 Open holding two drafted objects (1 and 2;
object 1 already has a Head row, object 2 does not) and an unrelated
change set 7, plus a change set 8 already Applied. -/
def exW2 : World :=
  { store :=
      { headRows := [⟨1, 1, "one-head", 10⟩]
      , changeSetRows :=
          [(5, ⟨1, 1, "one-cs", 11⟩), (5, ⟨2, 2, "two-cs", 22⟩), (7, ⟨3, 3, "other", 33⟩)]
      , editSessionRows := [] }
  , changeSets := [⟨5, ChangeSetStatus.Open⟩, ⟨7, ChangeSetStatus.Open⟩,
      ⟨8, ChangeSetStatus.Applied⟩]
  , editSessions := [] }

/-- Run `save_session` and keep the resulting database state; a failing call
leaves the state as it was (the surrounding transaction is not applied). -/
def trySave (w : World) (esId : Nat) : World :=
  match EditSession.save_session w esId with
  | Except.ok w' => w'
  | Except.error _ => w

/-- A world with Open edit session 9 (two drafts) and Saved edit session 4
(one leftover row), both under change set 5, which holds one row. -/
def exW6 : World :=
  { store :=
      { headRows := [⟨1, 1, "one-head", 10⟩]
      , changeSetRows := [(5, ⟨1, 1, "one-cs", 11⟩)]
      , editSessionRows :=
          [(9, ⟨1, 1, "one-es", 12⟩), (9, ⟨2, 2, "two-es", 13⟩), (4, ⟨3, 3, "old", 14⟩)] }
  , changeSets := [⟨5, ChangeSetStatus.Open⟩]
  , editSessions := [⟨9, 5, EditSessionStatus.Open⟩, ⟨4, 5, EditSessionStatus.Saved⟩] }

/-- Edge kinds; the traversal in `all_entities` uses `Includes`. -/
inductive EdgeKind where
  | Includes : EdgeKind
  | Configures : EdgeKind
deriving DecidableEq, Repr

/-- An edge vertex: a `{object_id, kind}` pair (spec section 3). -/
structure Vertex where
  objectId : Nat
  kind : String
deriving DecidableEq, Repr

/-- An edge record: an edge kind plus tail/head vertex references. -/
structure Edge where
  kind : EdgeKind
  tailVertex : Vertex
  headVertex : Vertex
deriving DecidableEq, Repr

/-- Modelled from the spec: `Edge::direct_successor_edges_by_object_id` is
not under `src/`; its call site in `application::all_entities` passes only
the transaction, the edge kind and the tail object id — no
change-set/edit-session context — so the query is modelled as the section
4.1 resolution rule applied with an empty tier context, which yields
Head-tier edge rows only, filtered by kind and tail vertex. -/
def Edge.direct_successor_edges_by_object_id (edges : List (Tier × Edge))
    (kind : EdgeKind) (oid : Nat) : List Edge :=
  (edges.filter (fun p =>
    p.1 == Tier.Head && p.2.kind == kind && p.2.tailVertex.objectId == oid)).map (·.2)

/-- The edge query as the spec's words for C4 describe it (for comparison
with the source-shaped query above): edges of the given kind and tail
vertex whose row is visible under the EditSession → ChangeSet → Head tier
context supplied to the traversal. -/
def direct_successor_edges_spec (edges : List (Tier × Edge)) (kind : EdgeKind)
    (oid : Nat) (changeSetId editSessionId : Option Nat) : List Edge :=
  (edges.filter (fun p =>
    (p.1 == Tier.Head
      || (match changeSetId with
          | some c => p.1 == Tier.ChangeSetTier c
          | none => false)
      || (match editSessionId with
          | some e => p.1 == Tier.EditSessionTier e
          | none => false))
    && p.2.kind == kind && p.2.tailVertex.objectId == oid)).map (·.2)

/-- One entry of the label list returned by `all_entities`:
`{label: entity.name, value: edge.head_vertex.object_id}`. -/
structure LabelListItem where
  label : String
  value : Nat
deriving DecidableEq, Repr

/-- Reply of `application::all_entities`. -/
structure ApplicationEntities where
  entityList : List LabelListItem
deriving DecidableEq, Repr

/-- `application::all_entities` (from
`components/si-model/src/application.rs`): resolve the root application
entity in the given tier context, fetch the direct `Includes` successor
edges of the root entity's `id`, then for each edge resolve the successor
entity in the same context, skipping (`continue`) the edge when resolution
fails. -/
def successor_items (s : Store) (changeSetId editSessionId : Option Nat)
    (succ : List Edge) : List LabelListItem :=
  succ.filterMap (fun edge =>
    match Entity.for_head_or_change_set_or_edit_session s
        edge.headVertex.objectId changeSetId editSessionId with
    | Except.ok entity => some { label := entity.name, value := edge.headVertex.objectId }
    | Except.error _ => none)

/-- `application::all_entities` (from
`components/si-model/src/application.rs`, continued): the reply assembly. -/
def application.all_entities (s : Store) (edges : List (Tier × Edge))
    (applicationId : Nat) (changeSetId editSessionId : Option Nat) :
    Except StoreError ApplicationEntities :=
  match Entity.for_head_or_change_set_or_edit_session s applicationId
      changeSetId editSessionId with
  | Except.error e => Except.error e
  | Except.ok root_entity =>
    Except.ok
      { entityList := successor_items s changeSetId editSessionId
          (Edge.direct_successor_edges_by_object_id edges EdgeKind.Includes
            root_entity.id) }

/-- The traversal as the spec's words for C4 describe it: identical to
`application.all_entities` except that the edge query itself is resolved
under the caller's tier context. -/
def application.all_entities_spec (s : Store) (edges : List (Tier × Edge))
    (applicationId : Nat) (changeSetId editSessionId : Option Nat) :
    Except StoreError ApplicationEntities :=
  match Entity.for_head_or_change_set_or_edit_session s applicationId
      changeSetId editSessionId with
  | Except.error e => Except.error e
  | Except.ok root_entity =>
    Except.ok
      { entityList := successor_items s changeSetId editSessionId
          (direct_successor_edges_spec edges EdgeKind.Includes root_entity.id
            changeSetId editSessionId) }

/-- Modelled from the spec: the store's `list(kind, change_set_id?,
edit_session_id?)` operation (spec section 4.1) has no implementation under
`src/`; per the spec each member is independently resolved via the same
fallback rule; the member set is supplied as `oids`. -/
def listResolve (s : Store) (oids : List Nat)
    (changeSetId editSessionId : Option Nat) : List (Except StoreError Entity) :=
  oids.map (fun oid => resolve s oid changeSetId editSessionId)

/-- Two stores agree everywhere except possibly at the EditSession tier of
session `esId` (they may differ only in `esId`'s uncommitted drafts). -/
def agreeExceptSession (s s' : Store) (esId : Nat) : Prop :=
  s.headRows = s'.headRows
  ∧ s.changeSetRows = s'.changeSetRows
  ∧ s.editSessionRows.filter (fun p => !(p.1 == esId))
      = s'.editSessionRows.filter (fun p => !(p.1 == esId))

/-- A store where session 9 holds an uncommitted draft of object 1. -/
def exStoreC7 : Store :=
  { headRows := [⟨1, 1, "one-head", 10⟩]
  , changeSetRows := [(5, ⟨2, 2, "two-cs", 20⟩)]
  , editSessionRows := [(9, ⟨1, 1, "one-draft", 99⟩)] }

/-- The same store without session 9's draft. -/
def exStoreC7' : Store :=
  { headRows := [⟨1, 1, "one-head", 10⟩]
  , changeSetRows := [(5, ⟨2, 2, "two-cs", 20⟩)]
  , editSessionRows := [] }

/-- A store holding only the application entity (object 10) at Head, and one
Head-tier `Includes` edge to object 20, which exists at no tier. -/
def exStoreC5 : Store :=
  { headRows := [⟨10, 10, "app", 1⟩]
  , changeSetRows := []
  , editSessionRows := [] }

/-- One Head-tier `Includes` edge from the application to missing object 20. -/
def exEdgesC5 : List (Tier × Edge) :=
  [(Tier.Head, ⟨EdgeKind.Includes, ⟨10, "application"⟩, ⟨20, "service"⟩⟩)]

/-- A store with the application (object 10) and a successor (object 2),
both at Head. -/
def exStoreC4 : Store :=
  { headRows := [⟨10, 10, "app", 1⟩, ⟨2, 2, "succ", 3⟩]
  , changeSetRows := []
  , editSessionRows := [] }

/-- A single `Includes` edge from the application to object 2, existing
only at the EditSession tier of session 9 (a draft-only edge). -/
def exEdgesC4 : List (Tier × Edge) :=
  [(Tier.EditSessionTier 9, ⟨EdgeKind.Includes, ⟨10, "application"⟩, ⟨2, "service"⟩⟩)]

/-- A Head-tier `Includes` edge from the application to object 2. -/
def exEdgesC4head : List (Tier × Edge) :=
  [(Tier.Head, ⟨EdgeKind.Includes, ⟨10, "application"⟩, ⟨2, "service"⟩⟩)]

/-- An externally observable side effect of a handler run: the database
transaction durably committing, or a change notification reaching
subscribers. -/
inductive SideEffect where
  | dbCommitted : SideEffect
  | natsDelivered (msg : Nat) : SideEffect
deriving DecidableEq, Repr

/-- Modelled from the spec: the `NatsTxn` of the `si_data` crate is not
under `src/`; per the spec's change-notifier boundary a `publish` during
the transaction only queues the event, and the queued events become
observable to subscribers when the nats transaction commits
(`Group::new` in `group.rs` shows the in-transaction `nats.publish`
pattern; the handlers call `txn.commit()` then `nats.commit()`). -/
structure NatsTxn where
  queued : List Nat
deriving DecidableEq, Repr

/-- Queue a change notification on the transaction. -/
def NatsTxn.publish (n : NatsTxn) (msg : Nat) : NatsTxn :=
  { queued := n.queued ++ [msg] }

/-- The events subscribers observe when the nats transaction commits. -/
def NatsTxn.commitEvents (n : NatsTxn) : List SideEffect :=
  n.queued.map SideEffect.natsDelivered

/-- The `save_edit_session` handler
(`application_context_dal.rs`): run the database work
(`EditSession::get` + `save_session`, queueing its change notification on
the nats transaction), then `txn.commit()` (whose possible failure is
injected as `dbCommitOk`), then `nats.commit()`. Any earlier error
returns before both commits, so nothing is delivered. -/
def save_edit_session_handler (w : World) (esId : Nat) (dbCommitOk : Bool) :
    Except StoreError World × List SideEffect :=
  let nats : NatsTxn := { queued := [] }
  match EditSession.save_session w esId with
  | Except.error e => (Except.error e, [])
  | Except.ok w' =>
    let nats := nats.publish esId
    if dbCommitOk then (Except.ok w', SideEffect.dbCommitted :: nats.commitEvents)
    else (Except.error StoreError.persistence, [])

/-- The `create_change_set_and_edit_session` handler
(`application_context_dal.rs`): `ChangeSet::new` and `EditSession::new`
(modelled from the spec: both are not under `src/`; each creates an Open
record and queues its change notification), then `txn.commit()`, then
`nats.commit()`. -/
def create_change_set_and_edit_session_handler (w : World) (csId esId : Nat)
    (dbCommitOk : Bool) : Except StoreError World × List SideEffect :=
  let nats : NatsTxn := { queued := [] }
  let w1 : World := { w with changeSets := w.changeSets ++ [⟨csId, ChangeSetStatus.Open⟩] }
  let nats := nats.publish csId
  let w2 : World :=
    { w1 with editSessions := w1.editSessions ++ [⟨esId, csId, EditSessionStatus.Open⟩] }
  let nats := nats.publish esId
  if dbCommitOk then (Except.ok w2, SideEffect.dbCommitted :: nats.commitEvents)
  else (Except.error StoreError.persistence, [])

/-- A resource record (payload abstracted; only the list shape matters for
`ServiceWithResources`). -/
structure Resource where
  payload : Nat
deriving DecidableEq, Repr

/-- `ServiceWithResources` from `application.rs`. -/
structure ServiceWithResources where
  service : Entity
  resources : List Resource
deriving DecidableEq, Repr

/-- `ChangeSetCounts` from `application.rs` (`open`/`closed` i32 fields;
`open` is a Lean keyword, hence `openCount`/`closedCount`). -/
structure ChangeSetCounts where
  openCount : Int
  closedCount : Int
deriving DecidableEq, Repr

/-- `ApplicationListEntry` from `application.rs`. -/
structure ApplicationListEntry where
  application : Entity
  systems : List Entity
  servicesWithResources : List ServiceWithResources
  changeSetCounts : ChangeSetCounts
deriving DecidableEq, Repr

/-- The reply construction of `application::create` (`application.rs`
lines 112-118): once the sub-operations succeed and yield the application
entity, the reply unconditionally carries empty `systems`, empty
`services_with_resources` and counts `{open: 0, closed: 1}`. -/
def application.create_reply (app : Entity) : ApplicationListEntry :=
  { application := app
  , systems := []
  , servicesWithResources := []
  , changeSetCounts := { openCount := 0, closedCount := 1 } }

/-- `application::list` (`application.rs` lines 121-140): one entry per row
returned by the APPLICATION_LIST query (rows supplied here as the decoded
application entities), each with the same constant aggregate fields. -/
def application.list (rows : List Entity) : List ApplicationListEntry :=
  rows.map (fun app =>
    { application := app
    , systems := []
    , servicesWithResources := []
    , changeSetCounts := { openCount := 0, closedCount := 1 } })

/-- The dal visibility: `is_head` iff no change set is in view. Modelled
from the spec scope of `Visibility`, which is not under `src/`; only the
`is_head` distinction is needed by `ComponentDiff::new`. -/
structure Visibility where
  changeSetPk : Option Nat
deriving DecidableEq, Repr

/-- `Visibility::is_head`. -/
def Visibility.is_head (v : Visibility) : Bool := v.changeSetPk.isNone

/-- The dal context, reduced to its visibility. -/
structure DalContext where
  visibility : Visibility
deriving DecidableEq, Repr

/-- Modelled from the spec: `DalContext::clone_with_head` is not under
`src/`; it clones the context with head visibility. -/
def DalContext.clone_with_head (_ctx : DalContext) : DalContext :=
  { visibility := { changeSetPk := none } }

/-- A component view's `properties` document, abstracted to null-or-value
(only `is_null` and rendering matter to `ComponentDiff::new`). -/
inductive JsonValue where
  | null : JsonValue
  | value (s : String) : JsonValue
deriving DecidableEq, Repr

/-- `serde_json::Value::is_null`. -/
def JsonValue.is_null : JsonValue → Bool
  | JsonValue.null => true
  | JsonValue.value _ => false

/-- `CodeLanguage` (only the variants `ComponentDiff::new` uses). -/
inductive CodeLanguage where
  | Json : CodeLanguage
  | Diff : CodeLanguage
deriving DecidableEq, Repr

/-- `CodeView` from the dal. -/
structure CodeView where
  language : CodeLanguage
  code : Option String
deriving DecidableEq, Repr

/-- `CodeView::new`. -/
def CodeView.new (language : CodeLanguage) (code : Option String) : CodeView :=
  { language := language, code := code }

/-- `ComponentDiff` from `lib/dal/src/component/diff.rs`. -/
structure ComponentDiff where
  current : CodeView
  diffs : List CodeView
deriving DecidableEq, Repr

/-- The only `ComponentError` variant `ComponentDiff::new` itself raises. -/
inductive ComponentError where
  | InvalidContextForDiff : ComponentError
deriving DecidableEq, Repr

/-- The external collaborators of `ComponentDiff::new`, supplied as data:
`viewProps ctx id` is `ComponentView::new(ctx, id).properties`;
`existsAt ctx id` is `Component::get_by_id(ctx, id).is_some()`;
`render props` abstracts `ComponentViewProperties::try_from` +
`drop_private()` + `serde_json::to_string_pretty`; `diffLines prev curr`
abstracts the external `diff::lines` call together with the `-`/`+`/space
line prefixing. None of these are under `src/`. -/
structure ComponentStore where
  viewProps : DalContext → Nat → JsonValue
  existsAt : DalContext → Nat → Bool
  render : JsonValue → String
  diffLines : String → String → List String

/-- The `NEWLINE` constant of `diff.rs`. -/
def NEWLINE : String := "\n"

/-- `ComponentDiff::new` (`lib/dal/src/component/diff.rs`): reject a head
visibility context; an all-null current view yields a `{}` current code
view with no diffs; otherwise diffs are computed against head only when
the component exists on head (and its view is non-null), else the diffs
vector is empty. -/
def ComponentDiff.new (store : ComponentStore) (ctx : DalContext)
    (component_id : Nat) : Except ComponentError ComponentDiff :=
  let head_ctx := ctx.clone_with_head
  if ctx.visibility.is_head || !head_ctx.visibility.is_head then
    Except.error ComponentError.InvalidContextForDiff
  else
    let curr_component_view := store.viewProps ctx component_id
    if curr_component_view.is_null then
      Except.ok { current := CodeView.new CodeLanguage.Json (some "\x7b\x7d"), diffs := [] }
    else
      let curr_json := store.render curr_component_view
      if store.existsAt head_ctx component_id then
        let prev_component_view := store.viewProps head_ctx component_id
        if prev_component_view.is_null then
          Except.ok { current := CodeView.new CodeLanguage.Json (some curr_json), diffs := [] }
        else
          let prev_json := store.render prev_component_view
          let lines := store.diffLines prev_json curr_json
          let diff := CodeView.new CodeLanguage.Diff (some (String.intercalate NEWLINE lines))
          Except.ok { current := CodeView.new CodeLanguage.Json (some curr_json), diffs := [diff] }
      else
        Except.ok { current := CodeView.new CodeLanguage.Json (some curr_json), diffs := [] }

/-- A concrete component store: a non-null current view, and no component
at head visibility. -/
def exCompStore : ComponentStore :=
  { viewProps := fun _ _ => JsonValue.value "props"
  , existsAt := fun _ _ => false
  , render := fun _ => "rendered"
  , diffLines := fun _ _ => [] }

/-- C1: resolution order is EditSession row (if `edit_session_id` given and a
row exists) → ChangeSet row (if `change_set_id` given and a row exists) →
Head row; when no row exists at any applicable tier, resolution fails with
`NotFound`. -/
theorem resolve_tier_order (s : Store) (oid : Nat)
    (changeSetId editSessionId : Option Nat) :
    (∀ esId e, editSessionId = some esId → findEditSession s esId oid = some e →
      resolve s oid changeSetId editSessionId = Except.ok e)
    ∧ (∀ csId e, editSessionId.bind (fun i => findEditSession s i oid) = none →
      changeSetId = some csId → findChangeSet s csId oid = some e →
      resolve s oid changeSetId editSessionId = Except.ok e)
    ∧ (∀ e, editSessionId.bind (fun i => findEditSession s i oid) = none →
      changeSetId.bind (fun i => findChangeSet s i oid) = none →
      findHead s oid = some e →
      resolve s oid changeSetId editSessionId = Except.ok e)
    ∧ (editSessionId.bind (fun i => findEditSession s i oid) = none →
      changeSetId.bind (fun i => findChangeSet s i oid) = none →
      findHead s oid = none →
      resolve s oid changeSetId editSessionId = Except.error StoreError.notFound) := by
  refine ⟨?_, ?_, ?_, ?_⟩
  · intro esId e hes hfind
    simp [resolve, Entity.for_head_or_change_set_or_edit_session, hes, hfind]
  · intro csId e hes hcs hfind
    simp [resolve, Entity.for_head_or_change_set_or_edit_session, hes, hcs, hfind]
  · intro e hes hcs hfind
    simp [resolve, Entity.for_head_or_change_set_or_edit_session, hes, hcs, hfind]
  · intro hes hcs hfind
    simp [resolve, Entity.for_head_or_change_set_or_edit_session, hes, hcs, hfind]

/-- Witness for C1: on a concrete store, the EditSession row wins when the
session is given, the ChangeSet row wins when only the change set is given,
Head is the final fallback, and a fully absent object yields `NotFound`. -/
theorem resolve_tier_order_witness :
    resolve exStoreC1 1 (some 5) (some 9) = Except.ok ⟨1, 1, "one-es", 12⟩
    ∧ resolve exStoreC1 1 (some 5) none = Except.ok ⟨1, 1, "one-cs", 11⟩
    ∧ resolve exStoreC1 2 (some 5) (some 9) = Except.ok ⟨2, 2, "two-head", 20⟩
    ∧ resolve exStoreC1 3 (some 5) (some 9) = Except.error StoreError.notFound := by
  refine ⟨?_, ?_, ?_, ?_⟩
  · exact (resolve_tier_order exStoreC1 1 (some 5) (some 9)).1 9 _ rfl (by decide)
  · exact (resolve_tier_order exStoreC1 1 (some 5) none).2.1 5 _ (by decide) rfl (by decide)
  · exact (resolve_tier_order exStoreC1 2 (some 5) (some 9)).2.2.1 _ (by decide) (by decide)
      (by decide)
  · exact (resolve_tier_order exStoreC1 3 (some 5) (some 9)).2.2.2 (by decide) (by decide)
      (by decide)

/-- `upsertHead` makes `e` the row found for its own `objectId` and leaves
lookups of every other `objectId` unchanged. -/
theorem find?_upsertHead (rows : List Entity) (e : Entity) (oid : Nat) :
    (upsertHead rows e).find? (fun r => r.objectId == oid) =
      if e.objectId = oid then some e
      else rows.find? (fun r => r.objectId == oid) := by
  induction rows with
  | nil =>
    by_cases h : e.objectId = oid <;>
      simp [upsertHead, List.find?_cons, beq_iff_eq, h]
  | cons r rest ih =>
    by_cases h1 : r.objectId = e.objectId
    · have h1' : (r.objectId == e.objectId) = true := beq_iff_eq.mpr h1
      by_cases h2 : e.objectId = oid
      · have h2' : (e.objectId == oid) = true := beq_iff_eq.mpr h2
        have hro : r.objectId = oid := h1.trans h2
        simp [upsertHead, h1', List.find?_cons, h2, h2', hro]
      · have h2' : (e.objectId == oid) = false := beq_eq_false_iff_ne.mpr h2
        have h3' : (r.objectId == oid) = false := by
          rw [h1]; exact h2'
        simp [upsertHead, h1', List.find?_cons, h2, h2', h3']
    · have h1' : (r.objectId == e.objectId) = false := beq_eq_false_iff_ne.mpr h1
      by_cases h3 : r.objectId = oid
      · have h2 : ¬ e.objectId = oid := fun he => h1 (h3.trans he.symm)
        have h3' : (r.objectId == oid) = true := beq_iff_eq.mpr h3
        simp [upsertHead, h1', List.find?_cons, h3', h2]
      · have h3' : (r.objectId == oid) = false := beq_eq_false_iff_ne.mpr h3
        by_cases h2 : e.objectId = oid <;>
          simp [upsertHead, h1', List.find?_cons, h3', h2, ih]

/-- Folding `upsertHead` over drafts none of which carry `oid` leaves the
lookup of `oid` unchanged (frame property of promotion). -/
theorem find?_promote_frame (drafts : List Entity) (rows : List Entity) (oid : Nat)
    (h : ∀ e ∈ drafts, e.objectId ≠ oid) :
    (drafts.foldl upsertHead rows).find? (fun r => r.objectId == oid) =
      rows.find? (fun r => r.objectId == oid) := by
  induction drafts generalizing rows with
  | nil => rfl
  | cons d rest ih =>
    have hd : d.objectId ≠ oid := h d (List.mem_cons_self d rest)
    have hrest : ∀ e ∈ rest, e.objectId ≠ oid := fun e he => h e (List.mem_cons_of_mem d he)
    simp only [List.foldl_cons]
    rw [ih (upsertHead rows d) hrest, find?_upsertHead]
    simp [hd]

/-- Folding `upsertHead` over drafts with pairwise distinct `objectId`s makes
each draft the row found for its `objectId`. -/
theorem find?_promote_hit (drafts : List Entity) (rows : List Entity) (e : Entity)
    (hmem : e ∈ drafts)
    (hdist : drafts.Pairwise (fun a b => a.objectId ≠ b.objectId)) :
    (drafts.foldl upsertHead rows).find? (fun r => r.objectId == e.objectId) =
      some e := by
  induction drafts generalizing rows with
  | nil => cases hmem
  | cons d rest ih =>
    rcases List.mem_cons.mp hmem with rfl | hmem'
    · have hrest : ∀ x ∈ rest, x.objectId ≠ e.objectId := by
        intro x hx
        exact fun hx' => (List.pairwise_cons.mp hdist).1 x hx hx'.symm
      simp only [List.foldl_cons]
      rw [find?_promote_frame rest (upsertHead rows e) e.objectId hrest,
        find?_upsertHead]
      simp
    · simp only [List.foldl_cons]
      exact ih (upsertHead rows d) hmem' (List.pairwise_cons.mp hdist).2

/-- After the status-update map of `ChangeSet.apply`, the change set found
for `csId` is the original first match, now with status Applied. -/
theorem find?_map_applyStatus (l : List ChangeSet) (csId : Nat) (cs : ChangeSet)
    (h : l.find? (fun c => c.id == csId) = some cs) :
    (l.map (fun c =>
        if c.id == csId then { c with status := ChangeSetStatus.Applied } else c)).find?
      (fun c => c.id == csId) = some { cs with status := ChangeSetStatus.Applied } := by
  induction l with
  | nil => simp [List.find?] at h
  | cons c rest ih =>
    by_cases hc : c.id = csId
    · have hc' : (c.id == csId) = true := beq_iff_eq.mpr hc
      simp only [List.find?_cons, hc'] at h
      have hcs : c = cs := by injection h
      subst hcs
      simp only [List.map_cons, hc', if_true]
      rw [List.find?_cons_of_pos]
      exact hc'
    · have hc' : (c.id == csId) = false := beq_eq_false_iff_ne.mpr hc
      simp only [List.find?_cons, hc'] at h
      simp only [List.map_cons, hc', Bool.false_eq_true, if_false]
      rw [List.find?_cons_of_neg]
      · exact ih h
      · simp [hc']

/-- After the status-update map of `EditSession.save_session`, the edit
session found for `esId` is the original first match, now with status
Saved. -/
theorem find?_map_savedStatus (l : List EditSession) (esId : Nat) (es : EditSession)
    (h : l.find? (fun s => s.id == esId) = some es) :
    (l.map (fun s =>
        if s.id == esId then { s with status := EditSessionStatus.Saved } else s)).find?
      (fun s => s.id == esId) = some { es with status := EditSessionStatus.Saved } := by
  induction l with
  | nil => simp [List.find?] at h
  | cons s rest ih =>
    by_cases hc : s.id = esId
    · have hc' : (s.id == esId) = true := beq_iff_eq.mpr hc
      simp only [List.find?_cons, hc'] at h
      have hes : s = es := by injection h
      subst hes
      simp only [List.map_cons, hc', if_true]
      rw [List.find?_cons_of_pos]
      exact hc'
    · have hc' : (s.id == esId) = false := beq_eq_false_iff_ne.mpr hc
      simp only [List.find?_cons, hc'] at h
      simp only [List.map_cons, hc', Bool.false_eq_true, if_false]
      rw [List.find?_cons_of_neg]
      · exact ih h
      · simp [hc']

/-- After the status-update map of `EditSession.cancel`, the edit session
found for `esId` is the original first match, now with status Canceled. -/
theorem find?_map_canceledStatus (l : List EditSession) (esId : Nat) (es : EditSession)
    (h : l.find? (fun s => s.id == esId) = some es) :
    (l.map (fun s =>
        if s.id == esId then { s with status := EditSessionStatus.Canceled } else s)).find?
      (fun s => s.id == esId) = some { es with status := EditSessionStatus.Canceled } := by
  induction l with
  | nil => simp [List.find?] at h
  | cons s rest ih =>
    by_cases hc : s.id = esId
    · have hc' : (s.id == esId) = true := beq_iff_eq.mpr hc
      simp only [List.find?_cons, hc'] at h
      have hes : s = es := by injection h
      subst hes
      simp only [List.map_cons, hc', if_true]
      rw [List.find?_cons_of_pos]
      exact hc'
    · have hc' : (s.id == esId) = false := beq_eq_false_iff_ne.mpr hc
      simp only [List.find?_cons, hc'] at h
      simp only [List.map_cons, hc', Bool.false_eq_true, if_false]
      rw [List.find?_cons_of_neg]
      · exact ih h
      · simp [hc']

/-- Deleting every row keyed by `k` leaves no row keyed by `k`. -/
theorem filter_key_of_removeKey (l : List (Nat × Entity)) (k : Nat) :
    (l.filter (fun p => !(p.1 == k))).filter (fun p => p.1 == k) = [] := by
  induction l with
  | nil => rfl
  | cons p rest ih =>
    by_cases h : p.1 = k
    · simp [List.filter_cons, beq_iff_eq.mpr h, ih]
    · simp [List.filter_cons, beq_eq_false_iff_ne.mpr h, ih]

/-- Unfolding `ChangeSet.apply` on an Open change set. -/
theorem apply_ok (w : World) (csId : Nat) (cs : ChangeSet)
    (hfind : w.changeSets.find? (fun c => c.id == csId) = some cs)
    (hopen : cs.status = ChangeSetStatus.Open) :
    ChangeSet.apply w csId = Except.ok
      { store :=
          { headRows := ((w.store.changeSetRows.filter (fun p => p.1 == csId)).map (·.2)).foldl
              upsertHead w.store.headRows
          , changeSetRows := w.store.changeSetRows.filter (fun p => !(p.1 == csId))
          , editSessionRows := w.store.editSessionRows }
      , changeSets := w.changeSets.map (fun c =>
          if c.id == csId then { c with status := ChangeSetStatus.Applied } else c)
      , editSessions := w.editSessions.map (fun s =>
          if s.changeSetId == csId && s.status == EditSessionStatus.Open
          then { s with status := EditSessionStatus.Canceled } else s) } := by
  simp [ChangeSet.apply, hfind, hopen]

/-- Unfolding `ChangeSet.apply` on a non-Open change set. -/
theorem apply_invalid (w : World) (csId : Nat) (cs : ChangeSet)
    (hfind : w.changeSets.find? (fun c => c.id == csId) = some cs)
    (hne : cs.status ≠ ChangeSetStatus.Open) :
    ChangeSet.apply w csId = Except.error StoreError.invalidState := by
  simp [ChangeSet.apply, hfind, hne]

/-- C2: on a ChangeSet in status Open, `apply` promotes every drafted object
to its own Head row (overwriting any existing Head row, one per
`object_id`), leaves Head rows of undrafted objects unchanged, leaves zero
ChangeSet-tier rows for that change set, and sets status Applied, after
which a second `apply` fails with `InvalidState`; on a ChangeSet whose
status is not Open, `apply` fails with `InvalidState` (and, the operation
being a pure function of the world, changes nothing). -/
theorem apply_change_set_promotes (w : World) (csId : Nat) (cs : ChangeSet)
    (hfind : w.changeSets.find? (fun c => c.id == csId) = some cs)
    (hdistinct : (w.store.changeSetRows.filter (fun p => p.1 == csId)).Pairwise
      (fun a b => a.2.objectId ≠ b.2.objectId)) :
    (cs.status = ChangeSetStatus.Open →
      ∃ w', ChangeSet.apply w csId = Except.ok w'
        ∧ (∀ p ∈ w.store.changeSetRows, p.1 = csId →
            findHead w'.store p.2.objectId = some p.2)
        ∧ (∀ oid, (∀ p ∈ w.store.changeSetRows, p.1 = csId → p.2.objectId ≠ oid) →
            findHead w'.store oid = findHead w.store oid)
        ∧ w'.store.changeSetRows.filter (fun p => p.1 == csId) = []
        ∧ (w'.changeSets.find? (fun c => c.id == csId)).map ChangeSet.status
            = some ChangeSetStatus.Applied
        ∧ ChangeSet.apply w' csId = Except.error StoreError.invalidState)
    ∧ (cs.status ≠ ChangeSetStatus.Open →
        ChangeSet.apply w csId = Except.error StoreError.invalidState) := by
  constructor
  · intro hopen
    refine ⟨_, apply_ok w csId cs hfind hopen, ?_, ?_, ?_, ?_, ?_⟩
    · intro p hp hpcs
      have hmem : p.2 ∈ (w.store.changeSetRows.filter (fun q => q.1 == csId)).map (·.2) :=
        List.mem_map_of_mem _ (List.mem_filter.mpr ⟨hp, beq_iff_eq.mpr hpcs⟩)
      have hdist' : ((w.store.changeSetRows.filter (fun q => q.1 == csId)).map (·.2)).Pairwise
          (fun a b => a.objectId ≠ b.objectId) :=
        List.Pairwise.map _ (fun a b hab => hab) hdistinct
      simp only [findHead]
      exact find?_promote_hit _ _ p.2 hmem hdist'
    · intro oid hnot
      have hall : ∀ e ∈ (w.store.changeSetRows.filter (fun q => q.1 == csId)).map (·.2),
          e.objectId ≠ oid := by
        intro e he
        rcases List.mem_map.mp he with ⟨q, hq, rfl⟩
        have hq' := List.mem_filter.mp hq
        exact hnot q hq'.1 (beq_iff_eq.mp hq'.2)
      simp only [findHead]
      exact find?_promote_frame _ _ _ hall
    · exact filter_key_of_removeKey _ _
    · have hmap := find?_map_applyStatus w.changeSets csId cs hfind
      rw [hmap]
      rfl
    · exact apply_invalid _ csId { cs with status := ChangeSetStatus.Applied }
        (find?_map_applyStatus w.changeSets csId cs hfind) (by simp)
  · intro hne
    exact apply_invalid w csId cs hfind hne

/-- Witness for C2: applying Open change set 5 of `exW2` promotes its two
drafts, frames the rest, clears its tier, marks it Applied and makes a
second `apply` fail; applying the already-Applied change set 8 fails with
`InvalidState`. -/
theorem apply_change_set_promotes_witness :
    (∃ w', ChangeSet.apply exW2 5 = Except.ok w'
      ∧ (∀ p ∈ exW2.store.changeSetRows, p.1 = 5 →
          findHead w'.store p.2.objectId = some p.2)
      ∧ (∀ oid, (∀ p ∈ exW2.store.changeSetRows, p.1 = 5 → p.2.objectId ≠ oid) →
          findHead w'.store oid = findHead exW2.store oid)
      ∧ w'.store.changeSetRows.filter (fun p => p.1 == 5) = []
      ∧ (w'.changeSets.find? (fun c => c.id == 5)).map ChangeSet.status
          = some ChangeSetStatus.Applied
      ∧ ChangeSet.apply w' 5 = Except.error StoreError.invalidState)
    ∧ ChangeSet.apply exW2 8 = Except.error StoreError.invalidState := by
  constructor
  · exact (apply_change_set_promotes exW2 5 ⟨5, ChangeSetStatus.Open⟩ (by decide)
      (by decide)).1 rfl
  · exact (apply_change_set_promotes exW2 8 ⟨8, ChangeSetStatus.Applied⟩ (by decide)
      (by decide)).2 (by decide)

/-- Unfolding `EditSession.save_session` on an Open session. -/
theorem save_session_ok (w : World) (esId : Nat) (es : EditSession)
    (hfind : w.editSessions.find? (fun s => s.id == esId) = some es)
    (hopen : es.status = EditSessionStatus.Open) :
    EditSession.save_session w esId = Except.ok
      { store :=
          { headRows := w.store.headRows
          , changeSetRows :=
              ((w.store.editSessionRows.filter (fun p => p.1 == esId)).map (·.2)).foldl
                (fun acc e => upsertChangeSetRow acc es.changeSetId e)
                w.store.changeSetRows
          , editSessionRows := w.store.editSessionRows.filter (fun p => !(p.1 == esId)) }
      , changeSets := w.changeSets
      , editSessions := w.editSessions.map (fun s =>
          if s.id == esId then { s with status := EditSessionStatus.Saved } else s) } := by
  simp [EditSession.save_session, hfind, hopen]

/-- Unfolding `EditSession.save_session` on a non-Open session. -/
theorem save_session_invalid (w : World) (esId : Nat) (es : EditSession)
    (hfind : w.editSessions.find? (fun s => s.id == esId) = some es)
    (hne : es.status ≠ EditSessionStatus.Open) :
    EditSession.save_session w esId = Except.error StoreError.invalidState := by
  simp [EditSession.save_session, hfind, hne]

/-- C3: `save_session` is idempotent — invoking it twice with no intervening
write leaves the same ChangeSet-tier content as invoking it once (the
second invocation fails with `InvalidState`, the session having reached the
terminal status Saved, and so changes nothing). -/
theorem save_session_idempotent (w : World) (esId : Nat) :
    (trySave (trySave w esId) esId).store.changeSetRows
      = (trySave w esId).store.changeSetRows := by
  unfold trySave
  cases hfind : w.editSessions.find? (fun s => s.id == esId) with
  | none =>
    have herr : EditSession.save_session w esId = Except.error StoreError.notFound := by
      simp [EditSession.save_session, hfind]
    simp [herr]
  | some es =>
    by_cases hst : es.status = EditSessionStatus.Open
    · have hsave := save_session_ok w esId es hfind hst
      rw [hsave]
      have hfind2 := find?_map_savedStatus w.editSessions esId es hfind
      have hsave2 := save_session_invalid
        { store :=
            { headRows := w.store.headRows
            , changeSetRows :=
                ((w.store.editSessionRows.filter (fun p => p.1 == esId)).map (·.2)).foldl
                  (fun acc e => upsertChangeSetRow acc es.changeSetId e)
                  w.store.changeSetRows
            , editSessionRows := w.store.editSessionRows.filter (fun p => !(p.1 == esId)) }
        , changeSets := w.changeSets
        , editSessions := w.editSessions.map (fun s =>
            if s.id == esId then { s with status := EditSessionStatus.Saved } else s) }
        esId { es with status := EditSessionStatus.Saved } hfind2 (by simp)
      rw [hsave2]
    · have herr := save_session_invalid w esId es hfind hst
      simp [herr]

/-- Unfolding `EditSession.cancel` on an Open session. -/
theorem cancel_ok (w : World) (esId : Nat) (es : EditSession)
    (hfind : w.editSessions.find? (fun s => s.id == esId) = some es)
    (hopen : es.status = EditSessionStatus.Open) :
    EditSession.cancel w esId = Except.ok
      { store :=
          { headRows := w.store.headRows
          , changeSetRows := w.store.changeSetRows
          , editSessionRows := w.store.editSessionRows.filter (fun p => !(p.1 == esId)) }
      , changeSets := w.changeSets
      , editSessions := w.editSessions.map (fun s =>
          if s.id == esId then { s with status := EditSessionStatus.Canceled } else s) } := by
  simp [EditSession.cancel, hfind, hopen]

/-- Unfolding `EditSession.cancel` on a non-Open session. -/
theorem cancel_invalid (w : World) (esId : Nat) (es : EditSession)
    (hfind : w.editSessions.find? (fun s => s.id == esId) = some es)
    (hne : es.status ≠ EditSessionStatus.Open) :
    EditSession.cancel w esId = Except.error StoreError.invalidState := by
  simp [EditSession.cancel, hfind, hne]

/-- C6: on an EditSession in status Open, `cancel` deletes all of the
session's draft rows and sets status Canceled while leaving every
ChangeSet-tier row (and every Head row) byte-for-byte unchanged; on a
session whose status is not Open, `cancel` fails with `InvalidState`. -/
theorem cancel_edit_session_frame (w : World) (esId : Nat) (es : EditSession)
    (hfind : w.editSessions.find? (fun s => s.id == esId) = some es) :
    (es.status = EditSessionStatus.Open →
      ∃ w', EditSession.cancel w esId = Except.ok w'
        ∧ w'.store.editSessionRows.filter (fun p => p.1 == esId) = []
        ∧ w'.store.changeSetRows = w.store.changeSetRows
        ∧ w'.store.headRows = w.store.headRows
        ∧ (w'.editSessions.find? (fun s => s.id == esId)).map EditSession.status
            = some EditSessionStatus.Canceled)
    ∧ (es.status ≠ EditSessionStatus.Open →
        EditSession.cancel w esId = Except.error StoreError.invalidState) := by
  constructor
  · intro hopen
    refine ⟨_, cancel_ok w esId es hfind hopen, ?_, rfl, rfl, ?_⟩
    · exact filter_key_of_removeKey _ _
    · rw [find?_map_canceledStatus w.editSessions esId es hfind]
      rfl
  · intro hne
    exact cancel_invalid w esId es hfind hne

/-- Witness for C6: canceling Open session 9 of `exW6` deletes exactly its
drafts, keeps ChangeSet-tier and Head rows unchanged and marks it Canceled;
canceling the already-Saved session 4 fails with `InvalidState`. -/
theorem cancel_edit_session_frame_witness :
    (∃ w', EditSession.cancel exW6 9 = Except.ok w'
      ∧ w'.store.editSessionRows.filter (fun p => p.1 == 9) = []
      ∧ w'.store.changeSetRows = exW6.store.changeSetRows
      ∧ w'.store.headRows = exW6.store.headRows
      ∧ (w'.editSessions.find? (fun s => s.id == 9)).map EditSession.status
          = some EditSessionStatus.Canceled)
    ∧ EditSession.cancel exW6 4 = Except.error StoreError.invalidState := by
  constructor
  · exact (cancel_edit_session_frame exW6 9 ⟨9, 5, EditSessionStatus.Open⟩ (by decide)).1 rfl
  · exact (cancel_edit_session_frame exW6 4 ⟨4, 5, EditSessionStatus.Saved⟩ (by decide)).2
      (by decide)

/-- `find?` is insensitive to filtering by a predicate that is implied by
the search predicate. -/
theorem find?_eq_find?_filter {α : Type} (p q : α → Bool) (l : List α)
    (h : ∀ x, p x = true → q x = true) :
    l.find? p = (l.filter q).find? p := by
  induction l with
  | nil => rfl
  | cons a rest ih =>
    by_cases ha : p a = true
    · rw [List.find?_cons_of_pos _ ha, List.filter_cons_of_pos (h a ha),
        List.find?_cons_of_pos _ ha]
    · have ha' : ¬ p a = true := ha
      rw [List.find?_cons_of_neg _ ha']
      by_cases hq : q a = true
      · rw [List.filter_cons_of_pos hq, List.find?_cons_of_neg _ ha']
        exact ih
      · rw [List.filter_cons_of_neg hq]
        exact ih

/-- An EditSession-tier lookup for session `s2` only sees rows keyed by
`s2`, so it agrees across two stores that differ only at session `s1`'s
tier, `s2 ≠ s1`. -/
theorem findEditSession_agree (s s' : Store) (s1 s2 : Nat)
    (h : agreeExceptSession s s' s1) (hne : s2 ≠ s1) (oid : Nat) :
    findEditSession s s2 oid = findEditSession s' s2 oid := by
  have himp : ∀ x : Nat × Entity,
      (x.1 == s2 && x.2.objectId == oid) = true → (!(x.1 == s1)) = true := by
    intro x hx
    have h1 : x.1 = s2 ∧ x.2.objectId = oid := by simpa using hx
    simp [h1.1, hne]
  unfold findEditSession
  rw [find?_eq_find?_filter _ (fun p => !(p.1 == s1)) s.editSessionRows himp,
    find?_eq_find?_filter _ (fun p => !(p.1 == s1)) s'.editSessionRows himp,
    h.2.2]

/-- Resolution in session `s2`'s context is insensitive to the drafts of a
different session `s1`. -/
theorem resolve_agree (s s' : Store) (s1 s2 : Nat) (changeSetId : Option Nat)
    (h : agreeExceptSession s s' s1) (hne : s2 ≠ s1) (oid : Nat) :
    resolve s oid changeSetId (some s2) = resolve s' oid changeSetId (some s2) := by
  have hes := findEditSession_agree s s' s1 s2 h hne oid
  have hcsb : changeSetId.bind (fun c => findChangeSet s c oid)
      = changeSetId.bind (fun c => findChangeSet s' c oid) := by
    cases changeSetId <;> simp [findChangeSet, h.2.1]
  have hh : findHead s oid = findHead s' oid := by
    simp [findHead, h.1]
  simp only [resolve, Entity.for_head_or_change_set_or_edit_session,
    Option.some_bind]
  rw [hes, hcsb, hh]

/-- The per-edge successor loop of `all_entities` is insensitive to the
drafts of a session other than the one in context. -/
theorem successor_items_agree (s s' : Store) (s1 s2 : Nat) (changeSetId : Option Nat)
    (h : agreeExceptSession s s' s1) (hne : s2 ≠ s1) (succ : List Edge) :
    successor_items s changeSetId (some s2) succ
      = successor_items s' changeSetId (some s2) succ := by
  induction succ with
  | nil => rfl
  | cons e rest ih =>
    have hre := resolve_agree s s' s1 s2 changeSetId h hne e.headVertex.objectId
    simp only [resolve] at hre
    simp only [successor_items, List.filterMap_cons] at ih ⊢
    rw [hre, ih]

/-- C7 (EditSession isolation, noninterference): for two stores identical
except for the uncommitted drafts of session `s1`, every read performed in
a different session `s2`'s context — `resolve`, `list`, and the successors
traversal — returns identical results: `s2` can never observe `s1`'s
unsaved drafts, under the same or a different change set. -/
theorem edit_session_isolation (s s' : Store) (edges : List (Tier × Edge))
    (s1 s2 : Nat) (changeSetId : Option Nat)
    (h : agreeExceptSession s s' s1) (hne : s2 ≠ s1) :
    (∀ oid, resolve s oid changeSetId (some s2)
        = resolve s' oid changeSetId (some s2))
    ∧ (∀ oids, listResolve s oids changeSetId (some s2)
        = listResolve s' oids changeSetId (some s2))
    ∧ (∀ applicationId,
        application.all_entities s edges applicationId changeSetId (some s2)
          = application.all_entities s' edges applicationId changeSetId (some s2)) := by
  refine ⟨fun oid => resolve_agree s s' s1 s2 changeSetId h hne oid, ?_, ?_⟩
  · intro oids
    unfold listResolve
    have hf : (fun oid => resolve s oid changeSetId (some s2))
        = (fun oid => resolve s' oid changeSetId (some s2)) :=
      funext (resolve_agree s s' s1 s2 changeSetId h hne)
    rw [hf]
  · intro applicationId
    have hroot := resolve_agree s s' s1 s2 changeSetId h hne applicationId
    simp only [resolve] at hroot
    unfold application.all_entities
    rw [hroot]
    cases hx : Entity.for_head_or_change_set_or_edit_session s' applicationId
        changeSetId (some s2) with
    | error e => rfl
    | ok root =>
      show Except.ok
          { entityList := successor_items s changeSetId (some s2)
              (Edge.direct_successor_edges_by_object_id edges EdgeKind.Includes root.id) }
        = Except.ok
          ({ entityList := successor_items s' changeSetId (some s2)
              (Edge.direct_successor_edges_by_object_id edges EdgeKind.Includes root.id) }
            : ApplicationEntities)
      rw [successor_items_agree s s' s1 s2 changeSetId h hne]

/-- Witness for C7: session 4 under change set 5 sees identical results
whether or not session 9 holds its uncommitted draft. -/
theorem edit_session_isolation_witness :
    (∀ oid, resolve exStoreC7 oid (some 5) (some 4)
        = resolve exStoreC7' oid (some 5) (some 4))
    ∧ (∀ oids, listResolve exStoreC7 oids (some 5) (some 4)
        = listResolve exStoreC7' oids (some 5) (some 4))
    ∧ (∀ applicationId,
        application.all_entities exStoreC7 [] applicationId (some 5) (some 4)
          = application.all_entities exStoreC7' [] applicationId (some 5) (some 4)) :=
  edit_session_isolation exStoreC7 exStoreC7' [] 9 4 (some 5) ⟨rfl, rfl, rfl⟩
    (by decide)

/-- C5: during tier-aware traversal, whenever resolving a successor entity
of an edge fails in the given tier context, that edge is omitted from the
returned collection and the call as a whole still succeeds rather than
propagating the error. -/
theorem all_entities_drops_missing_successors (s : Store) (edges : List (Tier × Edge))
    (applicationId : Nat) (changeSetId editSessionId : Option Nat) (root : Entity)
    (hroot : resolve s applicationId changeSetId editSessionId = Except.ok root) :
    ∃ r, application.all_entities s edges applicationId changeSetId editSessionId
        = Except.ok r
      ∧ ∀ edge ∈ Edge.direct_successor_edges_by_object_id edges EdgeKind.Includes root.id,
          ∀ err, resolve s edge.headVertex.objectId changeSetId editSessionId
              = Except.error err →
            ∀ item ∈ r.entityList, item.value ≠ edge.headVertex.objectId := by
  simp only [resolve] at hroot
  refine ⟨⟨successor_items s changeSetId editSessionId
      (Edge.direct_successor_edges_by_object_id edges EdgeKind.Includes root.id)⟩,
    ?_, ?_⟩
  · unfold application.all_entities
    rw [hroot]
  · intro edge _hedge err herr item hitem hval
    simp only [successor_items] at hitem
    rcases List.mem_filterMap.mp hitem with ⟨edge', _hedge', hfe⟩
    cases hres : Entity.for_head_or_change_set_or_edit_session s
        edge'.headVertex.objectId changeSetId editSessionId with
    | error e2 =>
      rw [hres] at hfe
      simp at hfe
    | ok ent =>
      rw [hres] at hfe
      have hi : item = { label := ent.name, value := edge'.headVertex.objectId } := by
        injection hfe with hh
        exact hh.symm
      subst hi
      simp only at hval
      rw [hval] at hres
      simp only [resolve] at herr
      rw [herr] at hres
      simp at hres

/-- Witness for C5: the edge to missing object 20 is dropped and the
traversal still succeeds. -/
theorem all_entities_drops_missing_successors_witness :
    ∃ r, application.all_entities exStoreC5 exEdgesC5 10 none none = Except.ok r
      ∧ ∀ edge ∈ Edge.direct_successor_edges_by_object_id exEdgesC5 EdgeKind.Includes 10,
          ∀ err, resolve exStoreC5 edge.headVertex.objectId none none
              = Except.error err →
            ∀ item ∈ r.entityList, item.value ≠ edge.headVertex.objectId :=
  all_entities_drops_missing_successors exStoreC5 exEdgesC5 10 none none
    ⟨10, 10, "app", 1⟩ rfl

/-- C4 counterexample: the successors traversal called in the drafting
session's own context (edit session 9) does NOT return the draft-only edge
— the edge query of `all_entities` receives no tier context — whereas the
claim's tier-context query (`all_entities_spec`, written from the spec's
words) returns its successor; moreover the traversal's result is identical
with and without the edit-session context. -/
theorem successors_tier_context_counterexample :
    application.all_entities exStoreC4 exEdgesC4 10 none (some 9)
        = Except.ok { entityList := [] }
    ∧ application.all_entities_spec exStoreC4 exEdgesC4 10 none (some 9)
        = Except.ok { entityList := [{ label := "succ", value := 2 }] }
    ∧ application.all_entities exStoreC4 exEdgesC4 10 none (some 9)
        = application.all_entities exStoreC4 exEdgesC4 10 none none := by
  refine ⟨rfl, rfl, rfl⟩

/-- C4 (amended): the successors traversal returns exactly the Head-tier
edges of the given edge kind whose tail vertex matches the root entity's
id; only the successor entities — not the edges — are resolved under the
EditSession → ChangeSet → Head tier context, so an edge row's visibility
does not depend on the supplied context. -/
theorem successors_head_edges (s : Store) (edges : List (Tier × Edge))
    (applicationId : Nat) (changeSetId editSessionId : Option Nat) (root : Entity)
    (hroot : resolve s applicationId changeSetId editSessionId = Except.ok root) :
    ∃ r, application.all_entities s edges applicationId changeSetId editSessionId
        = Except.ok r
      ∧ ∀ item, item ∈ r.entityList ↔
          ∃ edge, (Tier.Head, edge) ∈ edges
            ∧ edge.kind = EdgeKind.Includes
            ∧ edge.tailVertex.objectId = root.id
            ∧ ∃ entity, resolve s edge.headVertex.objectId changeSetId editSessionId
                = Except.ok entity
              ∧ item = { label := entity.name, value := edge.headVertex.objectId } := by
  simp only [resolve] at hroot
  refine ⟨⟨successor_items s changeSetId editSessionId
      (Edge.direct_successor_edges_by_object_id edges EdgeKind.Includes root.id)⟩,
    ?_, ?_⟩
  · unfold application.all_entities
    rw [hroot]
  · intro item
    constructor
    · intro hitem
      simp only [successor_items] at hitem
      rcases List.mem_filterMap.mp hitem with ⟨edge, hedge, hfe⟩
      rcases List.mem_map.mp hedge with ⟨⟨t, e⟩, hp, rfl⟩
      have hp' := List.mem_filter.mp hp
      have h1 : (t = Tier.Head ∧ e.kind = EdgeKind.Includes)
          ∧ e.tailVertex.objectId = root.id := by
        simpa using hp'.2
      cases hres : Entity.for_head_or_change_set_or_edit_session s
          e.headVertex.objectId changeSetId editSessionId with
      | error e2 =>
        rw [hres] at hfe
        simp at hfe
      | ok ent =>
        rw [hres] at hfe
        have hi : item = { label := ent.name, value := e.headVertex.objectId } := by
          injection hfe with hh
          exact hh.symm
        refine ⟨e, ?_, h1.1.2, h1.2, ent, ?_, hi⟩
        · have ht : (Tier.Head, e) = (t, e) := by rw [h1.1.1]
          rw [ht]
          exact hp'.1
        · simp only [resolve]
          exact hres
    · rintro ⟨edge, hmem, hkind, htail, ent, hres, hitem⟩
      simp only [successor_items]
      apply List.mem_filterMap.mpr
      refine ⟨edge, ?_, ?_⟩
      · apply List.mem_map.mpr
        refine ⟨(Tier.Head, edge), List.mem_filter.mpr ⟨hmem, ?_⟩, rfl⟩
        simp [hkind, htail]
      · simp only [resolve] at hres
        rw [hres, hitem]

/-- Witness for the amended C4: with a Head-tier edge to object 2, the item
list is characterized exactly as the amended claim states. -/
theorem successors_head_edges_witness :
    ∃ r, application.all_entities exStoreC4 exEdgesC4head 10 none (some 9)
        = Except.ok r
      ∧ ∀ item, item ∈ r.entityList ↔
          ∃ edge, (Tier.Head, edge) ∈ exEdgesC4head
            ∧ edge.kind = EdgeKind.Includes
            ∧ edge.tailVertex.objectId = 10
            ∧ ∃ entity, resolve exStoreC4 edge.headVertex.objectId none (some 9)
                = Except.ok entity
              ∧ item = { label := entity.name, value := edge.headVertex.objectId } :=
  successors_head_edges exStoreC4 exEdgesC4head 10 none (some 9)
    ⟨10, 10, "app", 1⟩ rfl

/-- In a trace that is either empty or headed by the commit event, every
delivery is strictly preceded by the commit. -/
theorem delivered_after_committed (trace : List SideEffect)
    (hshape : trace = [] ∨ ∃ tail, trace = SideEffect.dbCommitted :: tail) :
    ∀ i msg, trace.get? i = some (SideEffect.natsDelivered msg) →
      ∃ j, j < i ∧ trace.get? j = some SideEffect.dbCommitted := by
  intro i msg h
  rcases hshape with rfl | ⟨tail, rfl⟩
  · simp at h
  · cases i with
    | zero => simp at h
    | succ n => exact ⟨0, Nat.succ_pos n, rfl⟩

/-- The save handler's trace is empty or commit-headed. -/
theorem save_handler_shape (w : World) (esId : Nat) (dbCommitOk : Bool) :
    (save_edit_session_handler w esId dbCommitOk).2 = []
      ∨ ∃ tail, (save_edit_session_handler w esId dbCommitOk).2
          = SideEffect.dbCommitted :: tail := by
  unfold save_edit_session_handler
  cases EditSession.save_session w esId with
  | error e => exact Or.inl rfl
  | ok w' =>
    cases dbCommitOk with
    | false => exact Or.inl rfl
    | true => exact Or.inr ⟨_, rfl⟩

/-- The create handler's trace is empty or commit-headed. -/
theorem create_handler_shape (w : World) (csId esId : Nat) (dbCommitOk : Bool) :
    (create_change_set_and_edit_session_handler w csId esId dbCommitOk).2 = []
      ∨ ∃ tail, (create_change_set_and_edit_session_handler w csId esId dbCommitOk).2
          = SideEffect.dbCommitted :: tail := by
  unfold create_change_set_and_edit_session_handler
  cases dbCommitOk with
  | false => exact Or.inl rfl
  | true => exact Or.inr ⟨_, rfl⟩

/-- C8 (publish-after-commit): in the modelled mutating handlers the change
notification is queued during the transaction but observable only after the
database commit — every delivery event is strictly preceded by the commit
event in the trace — and a run whose transaction does not commit (an early
error, or `txn.commit()` failing) delivers nothing. -/
theorem publish_after_commit (w : World) (esId csId : Nat) (dbCommitOk : Bool) :
    (∀ i msg, (save_edit_session_handler w esId dbCommitOk).2.get? i
        = some (SideEffect.natsDelivered msg) →
      ∃ j, j < i ∧ (save_edit_session_handler w esId dbCommitOk).2.get? j
        = some SideEffect.dbCommitted)
    ∧ (dbCommitOk = false → (save_edit_session_handler w esId dbCommitOk).2 = [])
    ∧ (∀ i msg, (create_change_set_and_edit_session_handler w csId esId dbCommitOk).2.get? i
        = some (SideEffect.natsDelivered msg) →
      ∃ j, j < i ∧ (create_change_set_and_edit_session_handler w csId esId dbCommitOk).2.get? j
        = some SideEffect.dbCommitted)
    ∧ (dbCommitOk = false →
        (create_change_set_and_edit_session_handler w csId esId dbCommitOk).2 = []) := by
  refine ⟨delivered_after_committed _ (save_handler_shape w esId dbCommitOk), ?_,
    delivered_after_committed _ (create_handler_shape w csId esId dbCommitOk), ?_⟩
  · intro hfalse
    subst hfalse
    unfold save_edit_session_handler
    cases EditSession.save_session w esId with
    | error e => rfl
    | ok w' => rfl
  · intro hfalse
    subst hfalse
    rfl

/-- Witness for C8: on `exW6` saving Open session 9 with a successful
commit, the only delivery (index 1) is preceded by the commit (index 0);
with a failing commit the trace is empty, as it is for the create handler. -/
theorem publish_after_commit_witness :
    (∃ j, j < 1 ∧ (save_edit_session_handler exW6 9 true).2.get? j
        = some SideEffect.dbCommitted)
    ∧ (save_edit_session_handler exW6 9 false).2 = []
    ∧ (create_change_set_and_edit_session_handler exW6 11 12 false).2 = []
    ∧ (∃ j, j < 2 ∧ (create_change_set_and_edit_session_handler exW6 11 12 true).2.get? j
        = some SideEffect.dbCommitted) :=
  ⟨(publish_after_commit exW6 9 11 true).1 1 9 rfl,
   (publish_after_commit exW6 9 11 false).2.1 rfl,
   (publish_after_commit exW6 12 11 false).2.2.2 rfl,
   (publish_after_commit exW6 12 11 true).2.2.1 2 12 rfl⟩

/-- C9: every `ApplicationListEntry` returned by `application::create` and
by `application::list` carries constant aggregates regardless of the
actual database state — `systems` and `services_with_resources` are always
empty and `change_set_counts` is always `{open: 0, closed: 1}` — for every
possible input, so the counts are never computed from the workspace's real
change sets. -/
theorem application_list_constant_aggregates :
    (∀ app : Entity,
      (application.create_reply app).systems = []
      ∧ (application.create_reply app).servicesWithResources = []
      ∧ (application.create_reply app).changeSetCounts
          = { openCount := 0, closedCount := 1 })
    ∧ (∀ rows entry, entry ∈ application.list rows →
      entry.systems = []
      ∧ entry.servicesWithResources = []
      ∧ entry.changeSetCounts = { openCount := 0, closedCount := 1 }) := by
  constructor
  · intro app
    exact ⟨rfl, rfl, rfl⟩
  · intro rows entry he
    rcases List.mem_map.mp he with ⟨app, _, rfl⟩
    exact ⟨rfl, rfl, rfl⟩

/-- Witness for C9 at a concrete entity and a concrete one-row list. -/
theorem application_list_constant_aggregates_witness :
    ((application.create_reply ⟨1, 1, "one", 0⟩).systems = []
      ∧ (application.create_reply ⟨1, 1, "one", 0⟩).servicesWithResources = []
      ∧ (application.create_reply ⟨1, 1, "one", 0⟩).changeSetCounts
          = { openCount := 0, closedCount := 1 })
    ∧ ((application.create_reply ⟨1, 1, "one", 0⟩).systems = []
      ∧ (application.create_reply ⟨1, 1, "one", 0⟩).servicesWithResources = []
      ∧ (application.create_reply ⟨1, 1, "one", 0⟩).changeSetCounts
          = { openCount := 0, closedCount := 1 }) :=
  ⟨application_list_constant_aggregates.1 ⟨1, 1, "one", 0⟩,
   application_list_constant_aggregates.2 [⟨1, 1, "one", 0⟩]
     (application.create_reply ⟨1, 1, "one", 0⟩) (by decide)⟩

/-- C10: `ComponentDiff::new` fails with `InvalidContextForDiff` whenever
the calling context's visibility is head; and for every call with a
non-head visibility where the component has no row at head visibility, it
succeeds with an empty diffs vector (a newly added component produces no
diffs). -/
theorem component_diff_new_spec (store : ComponentStore) (ctx : DalContext)
    (component_id : Nat) :
    (ctx.visibility.is_head = true →
      ComponentDiff.new store ctx component_id
        = Except.error ComponentError.InvalidContextForDiff)
    ∧ (ctx.visibility.is_head = false →
      store.existsAt ctx.clone_with_head component_id = false →
      ∃ d, ComponentDiff.new store ctx component_id = Except.ok d ∧ d.diffs = []) := by
  constructor
  · intro hh
    simp [ComponentDiff.new, hh]
  · intro hh hex
    have hne : ¬ ctx.visibility.changeSetPk = none := by
      intro hcontra
      rw [Visibility.is_head, hcontra] at hh
      simp at hh
    cases hnull : (store.viewProps ctx component_id).is_null with
    | true =>
      refine ⟨⟨CodeView.new CodeLanguage.Json (some "\x7b\x7d"), []⟩, ?_, rfl⟩
      simp [ComponentDiff.new, DalContext.clone_with_head, Visibility.is_head, hne, hnull]
    | false =>
      refine ⟨⟨CodeView.new CodeLanguage.Json
          (some (store.render (store.viewProps ctx component_id))), []⟩, ?_, rfl⟩
      simp only [DalContext.clone_with_head] at hex
      simp [ComponentDiff.new, DalContext.clone_with_head, Visibility.is_head, hne, hnull,
        hex]

/-- Witness for C10: a head-visibility call fails with
`InvalidContextForDiff`; a change-set-visibility call for a component
absent at head succeeds with empty diffs. -/
theorem component_diff_new_spec_witness :
    ComponentDiff.new exCompStore { visibility := { changeSetPk := none } } 1
        = Except.error ComponentError.InvalidContextForDiff
    ∧ ∃ d, ComponentDiff.new exCompStore { visibility := { changeSetPk := some 3 } } 1
        = Except.ok d ∧ d.diffs = [] :=
  ⟨(component_diff_new_spec exCompStore { visibility := { changeSetPk := none } } 1).1 rfl,
   (component_diff_new_spec exCompStore { visibility := { changeSetPk := some 3 } } 1).2
     rfl rfl⟩
